import Mathlib

/-!
# VaultPlay Draw Worker - verification of the draw engine

Shallow embedding of the VaultPlay draw worker (`src/index.js`, v1.3).

The worker's pure draw pipeline is translated function by function:
`processEntries` (entry normalisation and qualification), `calculateEntryScores`
(per-entry scoring from the seed), `rankEntriesByScore` (descending sort plus
rank assignment) and the `allResults` assembly in the request handler, together
with the audit-bundle builder `generateAuditBundle`, the bundle-hash step, the
GitHub publication result handling and the retryability classifier.

External runtime primitives are modelled as follows:
* `crypto.subtle.digest` (SHA-256, wrapped by `computeSHA256Hex`) is an opaque
  parameter `sha256Hex : String → String` threaded through the definitions,
  exactly as the worker treats it: a deterministic string-to-hex-string oracle.
* `JSON.stringify` applied to the audit bundle is an opaque parameter
  `stringify : AuditBundle → String`.
* JavaScript string primitives (`trim`, `toLowerCase`, `localeCompare`,
  `includes`, BigInt hex parsing, `x || null` string truthiness) are given
  concrete executable models on `Char` lists / `Nat`, with `localeCompare`
  modelled as code-point lexicographic comparison.
* `Array.prototype.sort` (stable in the Workers runtime) is modelled by the
  stable `List.insertionSort` with the comparator of the source.
-/

namespace VaultPlay

/-! ## JavaScript string primitives -/

/-- JS string truthiness as used in `x || null` / `if (x)` on optional string
fields: the empty string is falsy, every other string is truthy. -/
def jsStr : Option String → Option String
  | some s => if s = "" then none else some s
  | none => none

/-- JS whitespace characters recognised by `String.prototype.trim`
(ASCII subset: space, tab, LF, VT, FF, CR). -/
def jsWhitespace (c : Char) : Bool :=
  c.toNat = 32 || c.toNat = 9 || c.toNat = 10 || c.toNat = 11 || c.toNat = 12 || c.toNat = 13

/-- Model of `String.prototype.trim`: strip whitespace at both ends. -/
def jsTrim (s : String) : String :=
  ⟨((s.data.dropWhile jsWhitespace).reverse.dropWhile jsWhitespace).reverse⟩

/-- ASCII model of `String.prototype.toLowerCase`. -/
def lowerChar (c : Char) : Char :=
  if 65 ≤ c.toNat ∧ c.toNat ≤ 90 then Char.ofNat (c.toNat + 32) else c

/-- Model of `String.prototype.toLowerCase` (character-wise). -/
def jsToLower (s : String) : String := ⟨s.data.map lowerChar⟩

/-- Value of one hexadecimal digit, as read by `BigInt("0x" + s)`. -/
def hexDigitVal (c : Char) : Nat :=
  if 48 ≤ c.toNat ∧ c.toNat ≤ 57 then c.toNat - 48
  else if 97 ≤ c.toNat ∧ c.toNat ≤ 102 then c.toNat - 87
  else if 65 ≤ c.toNat ∧ c.toNat ≤ 70 then c.toNat - 55
  else 0

/-- Model of `BigInt("0x" + s)` on a hex-digit string: the string read as a
base-16 unsigned integer of arbitrary precision. -/
def hexToNat (s : String) : Nat :=
  s.data.foldl (fun acc c => 16 * acc + hexDigitVal c) 0

/-- Code-point lexicographic `≤` on character lists; model of
`a.localeCompare(b) <= 0` for the entry codes compared by the ranking sort. -/
def lexLe : List Char → List Char → Bool
  | [], _ => true
  | _ :: _, [] => false
  | a :: as, b :: bs =>
    if a.toNat < b.toNat then true
    else if b.toNat < a.toNat then false
    else lexLe as bs

/-- Lexicographic `≤` on strings (model of `localeCompare`-based ordering). -/
def codeLe (a b : String) : Bool := lexLe a.data b.data

/-- Strict lexicographic `<` on strings (the negation of `codeLe` the other
way round; the comparison is total). -/
def codeLt (a b : String) : Bool := !(codeLe b a)

/-- `prefixMatch pat s` holds when `pat` is an initial segment of `s`. -/
def prefixMatch : List Char → List Char → Bool
  | [], _ => true
  | _ :: _, [] => false
  | a :: as, b :: bs => a == b && prefixMatch as bs

/-- Substring test on character lists. -/
def containsSub (pat : List Char) : List Char → Bool
  | [] => prefixMatch pat []
  | c :: rest => prefixMatch pat (c :: rest) || containsSub pat rest

/-- Model of `String.prototype.includes`. -/
def strIncludes (s pat : String) : Bool := containsSub pat.data s.data

/-! ## Data model (src/index.js entry objects) -/

/-- `location` block of an incoming or processed entry. -/
structure LocationInfo where
  country : Option String := none
  region : Option String := none
deriving DecidableEq, Repr

/-- `quiz` block of a raw entry; `answerCorrect` may be absent (undefined). -/
structure RawQuiz where
  question : Option String := none
  answerGiven : Option String := none
  answerCorrect : Option Bool := none
deriving DecidableEq, Repr

/-- A validated input entry (shape accepted by `validateInput`). -/
structure RawEntry where
  entryCode : String
  gamertag : Option String := none
  email : Option String := none
  entryTimestamp : Option String := none
  location : Option LocationInfo := none
  quiz : Option RawQuiz := none
deriving DecidableEq, Repr

/-- Entry status strings produced by `processEntries`: only the two literals
`"qualified"` and `"disqualified"` ever occur. -/
inductive Status where
  | qualified
  | disqualified
deriving DecidableEq, Repr

/-- `quiz` block after `processEntries`: `answerCorrect` is defaulted to
`true` when the input omitted it. -/
structure ProcQuiz where
  question : Option String := none
  answerGiven : Option String := none
  answerCorrect : Bool := true
deriving DecidableEq, Repr

/-- An entry after `processEntries` (lines 589-637). -/
structure ProcEntry where
  entryCode : String
  status : Status
  gamertag : Option String := none
  emailHash : Option String := none
  entryTimestamp : Option String := none
  location : Option LocationInfo := none
  quiz : Option ProcQuiz := none
  disqualificationReason : Option String := none
deriving DecidableEq, Repr

/-- Embedding of the per-entry body of `processEntries`
(src/index.js lines 590-635): trim/convert the optional metadata, hash the
lower-cased trimmed email, default `answerCorrect` to `true`, and disqualify
exactly when the raw quiz has `answerCorrect === false`. -/
def processEntry (sha256Hex : String → String) (entry : RawEntry) : ProcEntry :=
  let processed : ProcEntry :=
    { entryCode := entry.entryCode
      status := Status.qualified
      gamertag := (jsStr entry.gamertag).map jsTrim
      emailHash := (jsStr entry.email).map (fun e => sha256Hex (jsTrim (jsToLower e)))
      entryTimestamp := jsStr entry.entryTimestamp
      location := entry.location.map (fun loc =>
        { country := (jsStr loc.country).map jsTrim
          region := (jsStr loc.region).map jsTrim })
      quiz := entry.quiz.map (fun q =>
        { question := jsStr q.question
          answerGiven := jsStr q.answerGiven
          answerCorrect := q.answerCorrect.getD true })
      disqualificationReason := none }
  match entry.quiz with
  | some q =>
      if q.answerCorrect = some false then
        { processed with
            status := Status.disqualified
            disqualificationReason := some "Quiz answered incorrectly" }
      else processed
  | none => processed

/-- Embedding of `processEntries` (src/index.js lines 589-637). -/
def processEntries (sha256Hex : String → String) (entries : List RawEntry) : List ProcEntry :=
  entries.map (processEntry sha256Hex)

/-- An entry after `calculateEntryScores`: the processed entry together with
the BigInt score and its hex digest form. -/
structure ScoredEntry extends ProcEntry where
  score : Nat
  scoreHex : String
deriving DecidableEq, Repr

/-- Embedding of the per-entry body of `calculateEntryScores`
(src/index.js lines 649-667): `scoreHex = SHA-256(seed + entryCode)` and
`score = BigInt("0x" + scoreHex)`. -/
def scoreEntry (sha256Hex : String → String) (seed : String) (entry : ProcEntry) : ScoredEntry :=
  let combinedInput := seed ++ entry.entryCode
  let scoreHex := sha256Hex combinedInput
  { toProcEntry := entry
    score := hexToNat scoreHex
    scoreHex := scoreHex }

/-- Embedding of `calculateEntryScores` (src/index.js lines 645-671). -/
def calculateEntryScores (sha256Hex : String → String) (seed : String)
    (entries : List ProcEntry) : List ScoredEntry :=
  entries.map (scoreEntry sha256Hex seed)

/-- Step 2 of the handler (line 170): `seed = SHA-256(randomness)`. -/
def drawSeed (sha256Hex : String → String) (randomness : String) : String :=
  sha256Hex randomness

/-! ## Ranking (rankEntriesByScore, src/index.js lines 678-708) -/

/-- The sort comparator of `rankEntriesByScore` (lines 684-690), expressed as
the `≤`-relation \"`a` sorts no later than `b`\": `a.score > b.score`, or the
scores are equal and `a.entryCode.localeCompare(b.entryCode) <= 0`. -/
def scoreLe (a b : ScoredEntry) : Bool :=
  decide (b.score < a.score) || (decide (a.score = b.score) && codeLe a.entryCode b.entryCode)

/-- `scoreLe` as a relation, for the sort. -/
def scoreLeR (a b : ScoredEntry) : Prop := scoreLe a b = true

instance scoreLeRDec : DecidableRel scoreLeR :=
  fun a b => instDecidableEqBool (scoreLe a b) true

/-- The `entries.sort(...)` call of `rankEntriesByScore` (line 684): a stable
sort by the comparator above (the Workers runtime's `Array.prototype.sort` is
stable). -/
def sortByScore (l : List ScoredEntry) : List ScoredEntry :=
  List.insertionSort scoreLeR l

/-- A JavaScript value stored in the `score` field of a result object:
either a BigInt or a (decimal) string.  `rankEntriesByScore` converts the
BigInt to a string; the `allResults` spread for disqualified entries does
not. -/
inductive JsScore where
  | big (n : Nat)
  | str (s : String)
deriving DecidableEq, Repr

/-- A result entry as assembled by `rankEntriesByScore` / the `allResults`
step in the handler. -/
structure RankedEntry where
  rank : Option Nat
  entryCode : String
  gamertag : Option String
  emailHash : Option String
  entryTimestamp : Option String
  location : Option LocationInfo
  quiz : Option ProcQuiz
  status : Status
  disqualificationReason : Option String
  score : JsScore
  scoreHex : String
deriving DecidableEq, Repr

/-- The per-index body of the final `map` of `rankEntriesByScore`
(lines 693-707): `rank = index + 1`, optional string fields defaulted with
`|| null`, BigInt score converted to its decimal string. -/
def toRankedEntry (index : Nat) (entry : ScoredEntry) : RankedEntry :=
  { rank := some (index + 1)
    entryCode := entry.entryCode
    gamertag := jsStr entry.gamertag
    emailHash := jsStr entry.emailHash
    entryTimestamp := jsStr entry.entryTimestamp
    location := entry.location
    quiz := entry.quiz
    status := entry.status
    disqualificationReason := jsStr entry.disqualificationReason
    score := JsScore.str (Nat.repr entry.score)
    scoreHex := entry.scoreHex }

/-- Embedding of `rankEntriesByScore` (src/index.js lines 678-708). -/
def rankEntriesByScore (scoredEntries : List ScoredEntry) : List RankedEntry :=
  List.mapIdx toRankedEntry (sortByScore scoredEntries)

/-- `e.status === "qualified"` (handler line 181). -/
def isQualified (e : ScoredEntry) : Bool := decide (e.status = Status.qualified)

/-- `e.status === "disqualified"` (handler line 182). -/
def isDisqualified (e : ScoredEntry) : Bool := decide (e.status = Status.disqualified)

/-- The `{...e, rank: null}` spread applied to disqualified entries in the
`allResults` step (handler lines 191-194): every field of the scored entry is
kept as-is - in particular `score` stays a BigInt. -/
def disqualifiedToResult (e : ScoredEntry) : RankedEntry :=
  { rank := none
    entryCode := e.entryCode
    gamertag := e.gamertag
    emailHash := e.emailHash
    entryTimestamp := e.entryTimestamp
    location := e.location
    quiz := e.quiz
    status := e.status
    disqualificationReason := e.disqualificationReason
    score := JsScore.big e.score
    scoreHex := e.scoreHex }

/-- Embedding of the handler's steps 5-7 (lines 181-195): split the scored
entries into qualified and disqualified, rank the qualified ones, and append
the disqualified ones with `rank = null`. -/
def allResults (scoredEntries : List ScoredEntry) : List RankedEntry :=
  rankEntriesByScore (scoredEntries.filter isQualified) ++
    (scoredEntries.filter isDisqualified).map disqualifiedToResult

/-- The complete pure draw pipeline of the handler (steps 2-7): seed,
processing, scoring, ranking. -/
def drawResults (sha256Hex : String → String) (randomness : String)
    (entries : List RawEntry) : List RankedEntry :=
  allResults (calculateEntryScores sha256Hex (drawSeed sha256Hex randomness)
    (processEntries sha256Hex entries))

/-! ## Basic facts about the comparison functions -/

theorem lexLe_refl (l : List Char) : lexLe l l = true := by
  induction l with
  | nil => rfl
  | cons a as ih => simp [lexLe, ih]

theorem codeLe_refl (s : String) : codeLe s s = true := lexLe_refl s.data

theorem lexLe_total (xs ys : List Char) : lexLe xs ys = true ∨ lexLe ys xs = true := by
  induction xs generalizing ys with
  | nil => exact Or.inl rfl
  | cons a as ih =>
    cases ys with
    | nil => exact Or.inr rfl
    | cons b bs =>
      rcases Nat.lt_trichotomy a.toNat b.toNat with h | h | h
      · left; simp [lexLe, h]
      · have hne : ¬ a.toNat < b.toNat := by omega
        have hne' : ¬ b.toNat < a.toNat := by omega
        rcases ih bs with hc | hc
        · left; simp [lexLe, hne, hne', hc]
        · right; simp [lexLe, hne, hne', hc]
      · right; simp [lexLe, h, Nat.lt_asymm h]

theorem lexLe_trans (xs ys zs : List Char) (h₁ : lexLe xs ys = true)
    (h₂ : lexLe ys zs = true) : lexLe xs zs = true := by
  induction xs generalizing ys zs with
  | nil => rfl
  | cons a as ih =>
    cases ys with
    | nil => simp [lexLe] at h₁
    | cons b bs =>
      cases zs with
      | nil => simp [lexLe] at h₂
      | cons c cs =>
        simp only [lexLe] at h₁ h₂ ⊢
        rcases Nat.lt_trichotomy a.toNat b.toNat with hab | hab | hab
        · rcases Nat.lt_trichotomy b.toNat c.toNat with hbc | hbc | hbc
          · have hac : a.toNat < c.toNat := Nat.lt_trans hab hbc
            rw [if_pos hac]
          · have hac : a.toNat < c.toNat := by omega
            rw [if_pos hac]
          · exfalso
            rw [if_neg (Nat.lt_asymm hbc), if_pos hbc] at h₂
            simp at h₂
        · rcases Nat.lt_trichotomy b.toNat c.toNat with hbc | hbc | hbc
          · have hac : a.toNat < c.toNat := by omega
            rw [if_pos hac]
          · have g1 : ¬ a.toNat < c.toNat := by omega
            have g2 : ¬ c.toNat < a.toNat := by omega
            rw [if_neg (by omega : ¬ a.toNat < b.toNat),
                if_neg (by omega : ¬ b.toNat < a.toNat)] at h₁
            rw [if_neg (by omega : ¬ b.toNat < c.toNat),
                if_neg (by omega : ¬ c.toNat < b.toNat)] at h₂
            rw [if_neg g1, if_neg g2]
            exact ih bs cs h₁ h₂
          · exfalso
            rw [if_neg (Nat.lt_asymm hbc), if_pos hbc] at h₂
            simp at h₂
        · exfalso
          rw [if_neg (Nat.lt_asymm hab), if_pos hab] at h₁
          simp at h₁

theorem lexLe_antisymm (xs ys : List Char) (h₁ : lexLe xs ys = true)
    (h₂ : lexLe ys xs = true) : xs = ys := by
  induction xs generalizing ys with
  | nil =>
    cases ys with
    | nil => rfl
    | cons b bs => simp [lexLe] at h₂
  | cons a as ih =>
    cases ys with
    | nil => simp [lexLe] at h₁
    | cons b bs =>
      simp only [lexLe] at h₁ h₂
      rcases Nat.lt_trichotomy a.toNat b.toNat with hab | hab | hab
      · exfalso; simp [Nat.lt_asymm hab, hab] at h₂
      · have h1 : ¬ a.toNat < b.toNat := by omega
        have h2 : ¬ b.toNat < a.toNat := by omega
        rw [if_neg h1, if_neg h2] at h₁
        rw [if_neg h2, if_neg h1] at h₂
        have hchar : a = b := Char.ext (UInt32.ext hab)
        rw [hchar, ih bs h₁ h₂]
      · exfalso; simp [Nat.lt_asymm hab, hab] at h₁

theorem codeLe_total (a b : String) : codeLe a b = true ∨ codeLe b a = true :=
  lexLe_total a.data b.data

theorem codeLe_antisymm (a b : String) (h₁ : codeLe a b = true)
    (h₂ : codeLe b a = true) : a = b :=
  String.ext (lexLe_antisymm a.data b.data h₁ h₂)

theorem scoreLe_total (a b : ScoredEntry) : scoreLe a b = true ∨ scoreLe b a = true := by
  unfold scoreLe
  rcases Nat.lt_trichotomy a.score b.score with h | h | h
  · right; simp [h]
  · rcases codeLe_total a.entryCode b.entryCode with hc | hc
    · left; simp [h, hc]
    · right; simp [h, hc]
  · left; simp [h]

theorem scoreLe_trans (a b c : ScoredEntry) (h₁ : scoreLe a b = true)
    (h₂ : scoreLe b c = true) : scoreLe a c = true := by
  unfold scoreLe at h₁ h₂ ⊢
  simp only [Bool.or_eq_true, Bool.and_eq_true, decide_eq_true_eq] at h₁ h₂ ⊢
  rcases h₁ with h₁ | ⟨h₁e, h₁c⟩
  · rcases h₂ with h₂ | ⟨h₂e, h₂c⟩
    · exact Or.inl (Nat.lt_trans h₂ h₁)
    · exact Or.inl (h₂e ▸ h₁)
  · rcases h₂ with h₂ | ⟨h₂e, h₂c⟩
    · exact Or.inl (h₁e ▸ h₂)
    · exact Or.inr ⟨h₁e.trans h₂e, lexLe_trans _ _ _ h₁c h₂c⟩

instance : IsTotal ScoredEntry scoreLeR := ⟨scoreLe_total⟩

instance : IsTrans ScoredEntry scoreLeR := ⟨scoreLe_trans⟩

/-- If two entries compare `≤` both ways, their scores and entry codes agree. -/
theorem scoreLe_both (a b : ScoredEntry) (h₁ : scoreLe a b = true)
    (h₂ : scoreLe b a = true) : a.score = b.score ∧ a.entryCode = b.entryCode := by
  unfold scoreLe at h₁ h₂
  simp only [Bool.or_eq_true, Bool.and_eq_true, decide_eq_true_eq] at h₁ h₂
  rcases h₁ with h₁ | ⟨h₁e, h₁c⟩
  · rcases h₂ with h₂ | ⟨h₂e, h₂c⟩
    · exact absurd h₁ (Nat.lt_asymm h₂)
    · exact absurd h₁ (h₂e ▸ Nat.lt_irrefl _)
  · rcases h₂ with h₂ | ⟨h₂e, h₂c⟩
    · exact absurd h₂ (h₁e ▸ Nat.lt_irrefl _)
    · exact ⟨h₁e, codeLe_antisymm _ _ h₁c h₂c⟩

/-! ## Structural lemmas about the pipeline -/

theorem sortByScore_perm (l : List ScoredEntry) : (sortByScore l).Perm l :=
  List.perm_insertionSort scoreLeR l

theorem sortByScore_pairwise (l : List ScoredEntry) :
    (sortByScore l).Pairwise scoreLeR :=
  List.sorted_insertionSort scoreLeR l

theorem sortByScore_length (l : List ScoredEntry) :
    (sortByScore l).length = l.length :=
  (sortByScore_perm l).length_eq

/-- Scoring keeps the processed entry intact (spread `...entry`). -/
theorem scoreEntry_toProcEntry (H : String → String) (seed : String) (e : ProcEntry) :
    (scoreEntry H seed e).toProcEntry = e := rfl

/-- Processing keeps the entry code (line 592: `entryCode: entry.entryCode`). -/
theorem processEntry_entryCode (H : String → String) (x : RawEntry) :
    (processEntry H x).entryCode = x.entryCode := by
  unfold processEntry
  cases x.quiz with
  | none => rfl
  | some q =>
    by_cases hc : q.answerCorrect = some false
    · simp [hc]
    · simp [hc]

/-- The codes of the scored entries are the codes of the raw entries,
position by position. -/
theorem scored_codes (H : String → String) (seed : String) (l : List RawEntry) :
    (calculateEntryScores H seed (processEntries H l)).map
        (fun e => e.entryCode) = l.map RawEntry.entryCode := by
  unfold calculateEntryScores processEntries
  rw [List.map_map, List.map_map]
  apply List.map_congr_left
  intro a _
  exact processEntry_entryCode H a

/-- Membership in the scored list comes from a raw entry. -/
theorem mem_scored (H : String → String) (seed : String) (l : List RawEntry)
    (se : ScoredEntry)
    (h : se ∈ calculateEntryScores H seed (processEntries H l)) :
    ∃ x ∈ l, se = scoreEntry H seed (processEntry H x) := by
  unfold calculateEntryScores processEntries at h
  simp only [List.map_map, List.mem_map, Function.comp] at h
  obtain ⟨x, hx, hse⟩ := h
  exact ⟨x, hx, hse.symm⟩

/-- Conversely, every raw entry yields its scored entry. -/
theorem scored_mem (H : String → String) (seed : String) (l : List RawEntry)
    (x : RawEntry) (hx : x ∈ l) :
    scoreEntry H seed (processEntry H x) ∈
      calculateEntryScores H seed (processEntries H l) := by
  unfold calculateEntryScores processEntries
  simp only [List.map_map, List.mem_map, Function.comp]
  exact ⟨x, hx, rfl⟩

/-- Membership characterisation for `List.mapIdx`. -/
theorem mem_mapIdx_iff {α β : Type} (f : Nat → α → β) (l : List α) (b : β) :
    b ∈ List.mapIdx f l ↔ ∃ i, ∃ h : i < l.length, b = f i (l.get ⟨i, h⟩) := by
  constructor
  · intro hb
    rw [List.mem_iff_getElem] at hb
    obtain ⟨n, hn, hg⟩ := hb
    have hn' : n < l.length := by simpa [List.length_mapIdx] using hn
    refine ⟨n, hn', ?_⟩
    rw [List.get_eq_getElem]
    rw [List.getElem_mapIdx] at hg
    exact hg.symm
  · rintro ⟨i, h, rfl⟩
    rw [List.mem_iff_getElem]
    have hi : i < (List.mapIdx f l).length := by simpa [List.length_mapIdx] using h
    exact ⟨i, hi, by rw [List.getElem_mapIdx, List.get_eq_getElem]⟩

/-- The status of a processed entry is `disqualified` exactly when the raw
quiz block is present with `answerCorrect === false`. -/
theorem processEntry_status (H : String → String) (x : RawEntry) :
    ((processEntry H x).status = Status.disqualified ↔
      (∃ q, x.quiz = some q ∧ q.answerCorrect = some false)) ∧
    ((processEntry H x).status = Status.disqualified →
      (processEntry H x).disqualificationReason = some "Quiz answered incorrectly") ∧
    ((processEntry H x).status = Status.qualified →
      (processEntry H x).disqualificationReason = none) := by
  unfold processEntry
  cases hq : x.quiz with
  | none => simp
  | some q =>
    by_cases hc : q.answerCorrect = some false
    · simp [hc]
    · simp [hc]

/-- A processed entry is either qualified or disqualified. -/
theorem status_cases (s : Status) :
    s = Status.qualified ∨ s = Status.disqualified := by
  cases s
  · exact Or.inl rfl
  · exact Or.inr rfl

/-- Two sorted lists that are permutations of each other are equal, given
antisymmetry of the relation on the members of the first list. -/
theorem eq_of_perm_of_pairwise_antisymmOn {α : Type} {r : α → α → Prop} :
    ∀ (l₁ l₂ : List α), l₁.Perm l₂ → l₁.Pairwise r → l₂.Pairwise r →
      (∀ a ∈ l₁, ∀ b ∈ l₁, r a b → r b a → a = b) → l₁ = l₂
  | [], l₂, p, _, _, _ => p.nil_eq
  | a :: t₁, l₂, p, s₁, s₂, anti => by
    cases l₂ with
    | nil => exact absurd p.symm.nil_eq (by simp)
    | cons b t₂ =>
      have ha₂ : a ∈ b :: t₂ := p.mem_iff.mp (List.mem_cons_self a t₁)
      have hb₁ : b ∈ a :: t₁ := p.mem_iff.mpr (List.mem_cons_self b t₂)
      have hab : a = b := by
        rcases List.mem_cons.mp ha₂ with h | h
        · exact h
        · rcases List.mem_cons.mp hb₁ with h' | h'
          · exact h'.symm
          · have rba : r b a := (List.pairwise_cons.mp s₂).1 a h
            have rab : r a b := (List.pairwise_cons.mp s₁).1 b h'
            exact anti a (List.mem_cons_self a t₁) b hb₁ rab rba
      subst hab
      have p' : t₁.Perm t₂ := p.cons_inv
      have ih := eq_of_perm_of_pairwise_antisymmOn t₁ t₂ p'
        (List.pairwise_cons.mp s₁).2 (List.pairwise_cons.mp s₂).2
        (fun x hx y hy => anti x (List.mem_cons_of_mem a hx) y (List.mem_cons_of_mem a hy))
      rw [ih]

/-- The ranks of the ranked (qualified) part are `1, 2, ..., K` in order. -/
theorem rankEntriesByScore_ranks (l : List ScoredEntry) :
    (rankEntriesByScore l).map RankedEntry.rank =
      (List.range (sortByScore l).length).map (fun i => some (i + 1)) := by
  unfold rankEntriesByScore
  apply List.ext_getElem
  · simp [List.length_mapIdx]
  · intro n h₁ h₂
    have hn : n < (sortByScore l).length := by
      simpa [List.length_mapIdx] using h₁
    simp [List.getElem_mapIdx, List.getElem_range, toRankedEntry]

/-- The ranks of the disqualified part are all `null`. -/
theorem disqualified_ranks (l : List ScoredEntry) :
    (l.map disqualifiedToResult).map RankedEntry.rank =
      List.replicate l.length none := by
  induction l with
  | nil => rfl
  | cons e es ih => simp [disqualifiedToResult, List.replicate_succ, ih]

/-- Elements of the ranked part: position `i` holds `toRankedEntry i` of the
`i`-th sorted qualified entry. -/
theorem rankEntriesByScore_getElem (l : List ScoredEntry) (i : Nat)
    (h : i < (sortByScore l).length) (h' : i < (rankEntriesByScore l).length) :
    (rankEntriesByScore l).get ⟨i, h'⟩ = toRankedEntry i ((sortByScore l).get ⟨i, h⟩) := by
  unfold rankEntriesByScore
  rw [List.get_eq_getElem, List.get_eq_getElem]
  exact List.getElem_mapIdx

/-- `toRankedEntry` keeps the entry code. -/
theorem toRankedEntry_entryCode (i : Nat) (e : ScoredEntry) :
    (toRankedEntry i e).entryCode = e.entryCode := rfl

/-- `disqualifiedToResult` keeps the entry code. -/
theorem disqualifiedToResult_entryCode (e : ScoredEntry) :
    (disqualifiedToResult e).entryCode = e.entryCode := rfl

/-- The check `entry.quiz.answerCorrect === false` of line 629, on the raw
entry. -/
def quizAnswerFalse (x : RawEntry) : Bool :=
  match x.quiz with
  | some q => q.answerCorrect == some false
  | none => false

/-- Status and reason of a processed entry, driven by the quiz check. -/
theorem processEntry_status_bool (H : String → String) (x : RawEntry) :
    (processEntry H x).status =
        (if quizAnswerFalse x then Status.disqualified else Status.qualified) ∧
    (processEntry H x).disqualificationReason =
        (if quizAnswerFalse x then some "Quiz answered incorrectly" else none) := by
  unfold processEntry quizAnswerFalse
  cases x.quiz with
  | none => simp
  | some q =>
    by_cases hc : q.answerCorrect = some false
    · simp [hc]
    · simp [hc]

/-- Identity string transformer, used as a concrete stand-in for the hash
oracle when evaluating the pipeline on closed inputs. -/
def strId : String → String := fun s => s

/-- A minimal processed entry used in closed evaluations. -/
def procA : ProcEntry := { entryCode := "aa", status := Status.qualified }

/-- C1: for a draw with randomness `r`, the seed is the digest of `r`, and
every scored entry's `scoreHex` is the digest of the byte-level concatenation
`seed ++ entryCode`, with `score` that digest read as an arbitrary-precision
unsigned integer; the score depends on `(seed, entryCode)` alone. -/
theorem c1_seed_and_score_derivation (H : String → String) (r : String)
    (entries : List ProcEntry) (se : ScoredEntry)
    (hse : se ∈ calculateEntryScores H (drawSeed H r) entries) :
    drawSeed H r = H r ∧
    se.scoreHex = H (drawSeed H r ++ se.entryCode) ∧
    se.score = hexToNat se.scoreHex ∧
    ∀ e' : ProcEntry, e'.entryCode = se.entryCode →
      (scoreEntry H (drawSeed H r) e').score = se.score ∧
      (scoreEntry H (drawSeed H r) e').scoreHex = se.scoreHex := by
  unfold calculateEntryScores at hse
  rw [List.mem_map] at hse
  obtain ⟨e, _, rfl⟩ := hse
  refine ⟨rfl, rfl, rfl, ?_⟩
  intro e' hcode
  unfold scoreEntry
  have hc : e'.entryCode = e.entryCode := hcode
  rw [hc]
  exact ⟨rfl, rfl⟩

/-- Witness for C1 at a concrete input. -/
theorem c1_seed_and_score_derivation_witness :
    (scoreEntry strId (drawSeed strId "ab") procA).score =
      hexToNat ((scoreEntry strId (drawSeed strId "ab") procA).scoreHex) :=
  (c1_seed_and_score_derivation strId "ab" [procA] _ (by decide)).2.2.1

/-- C2: over any scored entry list, the `allResults` assembly assigns the
ranks `1..K` (K = number of qualified entries) positionally over the sorted
qualified entries and `null` to every disqualified entry, and the sorted
qualified entries are in non-increasing score order (so rank 1 holds a
maximal score). -/
theorem c2_rank_density_and_order (l : List ScoredEntry) :
    ((allResults l).map RankedEntry.rank =
      ((List.range (l.filter isQualified).length).map (fun i => some (i + 1))) ++
        List.replicate (l.filter isDisqualified).length none) ∧
    (∀ e ∈ allResults l, e.status = Status.disqualified → e.rank = none) ∧
    (∀ i j : Nat, ∀ hi : i < (sortByScore (l.filter isQualified)).length,
      ∀ hj : j < (sortByScore (l.filter isQualified)).length, i ≤ j →
        ((sortByScore (l.filter isQualified)).get ⟨j, hj⟩).score ≤
          ((sortByScore (l.filter isQualified)).get ⟨i, hi⟩).score) ∧
    (∀ i : Nat, ∀ hi : i < (sortByScore (l.filter isQualified)).length,
      ∀ hi' : i < (allResults l).length,
        (allResults l).get ⟨i, hi'⟩ =
          toRankedEntry i ((sortByScore (l.filter isQualified)).get ⟨i, hi⟩)) := by
  refine ⟨?_, ?_, ?_, ?_⟩
  · unfold allResults
    rw [List.map_append, rankEntriesByScore_ranks, disqualified_ranks, sortByScore_length]
  · intro e he hst
    unfold allResults at he
    rcases List.mem_append.mp he with h | h
    · exfalso
      unfold rankEntriesByScore at h
      rw [mem_mapIdx_iff] at h
      obtain ⟨i, hlt, rfl⟩ := h
      have hmem : (sortByScore (l.filter isQualified)).get ⟨i, hlt⟩ ∈
          l.filter isQualified :=
        (sortByScore_perm _).mem_iff.mp (List.get_mem _ i hlt)
      have hq : isQualified ((sortByScore (l.filter isQualified)).get ⟨i, hlt⟩) = true :=
        (List.mem_filter.mp hmem).2
      unfold isQualified at hq
      rw [decide_eq_true_eq] at hq
      have : Status.qualified = Status.disqualified := by
        rw [← hq]; exact hst
      cases this
    · rw [List.mem_map] at h
      obtain ⟨d, _, rfl⟩ := h
      rfl
  · intro i j hi hj hij
    rcases Nat.lt_or_ge i j with hlt | hge
    · have hp := List.pairwise_iff_getElem.mp (sortByScore_pairwise (l.filter isQualified))
        i j hi hj hlt
      unfold scoreLeR scoreLe at hp
      simp only [Bool.or_eq_true, Bool.and_eq_true, decide_eq_true_eq] at hp
      rw [List.get_eq_getElem, List.get_eq_getElem]
      rcases hp with hp | ⟨hpe, _⟩
      · exact Nat.le_of_lt hp
      · exact Nat.le_of_eq hpe.symm
    · have : i = j := Nat.le_antisymm hij hge
      subst this
      exact Nat.le_refl _
  · intro i hi hi'
    unfold allResults
    have hlen : i < (rankEntriesByScore (l.filter isQualified)).length := by
      unfold rankEntriesByScore
      simpa [List.length_mapIdx] using hi
    rw [List.get_eq_getElem]
    rw [List.getElem_append_left hlen]
    have hg := rankEntriesByScore_getElem (l.filter isQualified) i hi hlen
    rw [List.get_eq_getElem] at hg
    exact hg

/-- Concrete list used for closed evaluations of the ranking: two qualified
entries with distinct scores and one disqualified entry with the highest
score. -/
def demoScored : List ScoredEntry :=
  [{ entryCode := "aa", status := Status.qualified, score := 5, scoreHex := "05" },
   { entryCode := "bb", status := Status.disqualified,
     disqualificationReason := some "Quiz answered incorrectly", score := 9, scoreHex := "09" },
   { entryCode := "cc", status := Status.qualified, score := 7, scoreHex := "07" }]

/-- Witness for C2 at a concrete input. -/
theorem c2_rank_density_and_order_witness :
    ((allResults demoScored).map RankedEntry.rank = [some 1, some 2, none]) ∧
    ((sortByScore (demoScored.filter isQualified)).get ⟨1, by decide⟩).score ≤
      ((sortByScore (demoScored.filter isQualified)).get ⟨0, by decide⟩).score := by
  have h := c2_rank_density_and_order demoScored
  refine ⟨?_, h.2.2.1 0 1 (by decide) (by decide) (by decide)⟩
  rw [h.1]
  decide

/-- C4: among the sorted qualified entries, two entries with equal score are
ordered by ascending lexicographic entry code, and the one with the strictly
smaller entry code occupies the strictly smaller position, i.e. receives the
smaller rank (position `i` carries rank `i + 1`). -/
theorem c4_tie_break (l : List ScoredEntry) (i j : Nat)
    (hi : i < (sortByScore l).length) (hj : j < (sortByScore l).length)
    (heq : ((sortByScore l).get ⟨i, hi⟩).score = ((sortByScore l).get ⟨j, hj⟩).score) :
    (i < j → codeLe ((sortByScore l).get ⟨i, hi⟩).entryCode
        ((sortByScore l).get ⟨j, hj⟩).entryCode = true) ∧
    (codeLt ((sortByScore l).get ⟨i, hi⟩).entryCode
        ((sortByScore l).get ⟨j, hj⟩).entryCode = true → i < j) ∧
    (∀ hi' : i < (rankEntriesByScore l).length,
      ((rankEntriesByScore l).get ⟨i, hi'⟩).rank = some (i + 1) ∧
      ((rankEntriesByScore l).get ⟨i, hi'⟩).entryCode =
        ((sortByScore l).get ⟨i, hi⟩).entryCode) := by
  refine ⟨?_, ?_, ?_⟩
  · intro hlt
    have hp := List.pairwise_iff_getElem.mp (sortByScore_pairwise l) i j hi hj hlt
    unfold scoreLeR scoreLe at hp
    simp only [Bool.or_eq_true, Bool.and_eq_true, decide_eq_true_eq] at hp
    rw [List.get_eq_getElem, List.get_eq_getElem]
    rcases hp with hp | ⟨_, hpc⟩
    · exfalso
      rw [List.get_eq_getElem, List.get_eq_getElem] at heq
      exact absurd hp (heq ▸ Nat.lt_irrefl _)
    · exact hpc
  · intro hcl
    by_contra hnot
    rcases Nat.lt_or_ge j i with hlt | hge
    · have hp := List.pairwise_iff_getElem.mp (sortByScore_pairwise l) j i hj hi hlt
      unfold scoreLeR scoreLe at hp
      simp only [Bool.or_eq_true, Bool.and_eq_true, decide_eq_true_eq] at hp
      rw [List.get_eq_getElem, List.get_eq_getElem] at heq
      rcases hp with hp | ⟨_, hpc⟩
      · exact absurd hp (heq ▸ Nat.lt_irrefl _)
      · unfold codeLt at hcl
        rw [List.get_eq_getElem, List.get_eq_getElem] at hcl
        rw [hpc] at hcl
        simp at hcl
    · have : i = j := by omega
      subst this
      unfold codeLt at hcl
      rw [codeLe_refl] at hcl
      simp at hcl
  · intro hi'
    have hg := rankEntriesByScore_getElem l i hi hi'
    rw [hg]
    exact ⟨rfl, rfl⟩

/-- Concrete list with a score tie, for the closed evaluation of C4. -/
def demoTie : List ScoredEntry :=
  [{ entryCode := "bb", status := Status.qualified, score := 7, scoreHex := "07" },
   { entryCode := "aa", status := Status.qualified, score := 7, scoreHex := "07" }]

/-- Witness for C4 at a concrete input with a genuine score tie. -/
theorem c4_tie_break_witness :
    codeLe ((sortByScore demoTie).get ⟨0, by decide⟩).entryCode
        ((sortByScore demoTie).get ⟨1, by decide⟩).entryCode = true ∧
    ((rankEntriesByScore demoTie).get ⟨0, by decide⟩).rank = some 1 := by
  have h := c4_tie_break demoTie 0 1 (by decide) (by decide) (by decide)
  exact ⟨h.1 (by decide), (h.2.2 (by decide)).1⟩

/-- Decomposition of membership in the `allResults` assembly: every result
entry is either the `i`-th ranked qualified entry or a disqualified entry
carried over with `rank = null`. -/
theorem mem_allResults (l : List ScoredEntry) (e : RankedEntry)
    (h : e ∈ allResults l) :
    (∃ i, ∃ hs : i < (sortByScore (l.filter isQualified)).length,
      e = toRankedEntry i ((sortByScore (l.filter isQualified)).get ⟨i, hs⟩)) ∨
    (∃ d ∈ l.filter isDisqualified, e = disqualifiedToResult d) := by
  unfold allResults at h
  rcases List.mem_append.mp h with h | h
  · left
    unfold rankEntriesByScore at h
    rw [mem_mapIdx_iff] at h
    exact h
  · right
    rw [List.mem_map] at h
    obtain ⟨d, hd, rfl⟩ := h
    exact ⟨d, hd, rfl⟩

/-- Members of the sorted qualified part are qualified scored entries of the
input list. -/
theorem mem_sorted_qualified (l : List ScoredEntry) (s : ScoredEntry)
    (h : s ∈ sortByScore (l.filter isQualified)) :
    s ∈ l ∧ s.status = Status.qualified := by
  have hm := (sortByScore_perm _).mem_iff.mp h
  have := List.mem_filter.mp hm
  refine ⟨this.1, ?_⟩
  have hq := this.2
  unfold isQualified at hq
  rwa [decide_eq_true_eq] at hq

/-- Members of the disqualified part are disqualified scored entries. -/
theorem mem_filter_disqualified (l : List ScoredEntry) (d : ScoredEntry)
    (h : d ∈ l.filter isDisqualified) :
    d ∈ l ∧ d.status = Status.disqualified := by
  have := List.mem_filter.mp h
  refine ⟨this.1, ?_⟩
  have hq := this.2
  unfold isDisqualified at hq
  rwa [decide_eq_true_eq] at hq

/-- Entry codes of the scored pipeline are without duplicates whenever the
raw entry codes are. -/
theorem scored_codes_nodup (H : String → String) (seed : String) (l : List RawEntry)
    (hnodup : (l.map RawEntry.entryCode).Nodup) :
    ((calculateEntryScores H seed (processEntries H l)).map
      (fun e => e.entryCode)).Nodup := by
  rw [scored_codes]
  exact hnodup

/-- C3: with unique entry codes, an input entry's result is disqualified with
reason "Quiz answered incorrectly" and `rank = null` precisely when its quiz
block is present with `answerCorrect === false`; every other input entry ends
qualified, with no disqualification reason and a strictly positive rank. -/
theorem c3_qualification (H : String → String) (r : String)
    (entries : List RawEntry) (hnodup : (entries.map RawEntry.entryCode).Nodup)
    (x : RawEntry) (hx : x ∈ entries) :
    (∃ e ∈ drawResults H r entries, e.entryCode = x.entryCode) ∧
    (∀ e ∈ drawResults H r entries, e.entryCode = x.entryCode →
      (quizAnswerFalse x = true →
        e.status = Status.disqualified ∧
        e.disqualificationReason = some "Quiz answered incorrectly" ∧
        e.rank = none) ∧
      (quizAnswerFalse x = false →
        e.status = Status.qualified ∧
        e.disqualificationReason = none ∧
        ∃ k : Nat, e.rank = some (k + 1))) := by
  have hstat := processEntry_status_bool H x
  have hSnodup := scored_codes_nodup H (drawSeed H r) entries hnodup
  have hinjS := List.inj_on_of_nodup_map hSnodup
  have hinjRaw := List.inj_on_of_nodup_map hnodup
  set seed := drawSeed H r with hseed
  set S := calculateEntryScores H seed (processEntries H entries) with hS
  have hsx : scoreEntry H seed (processEntry H x) ∈ S := scored_mem H seed entries x hx
  constructor
  · -- existence of a result entry with the code of x
    cases hqf : quizAnswerFalse x with
    | true =>
      have hdis : (scoreEntry H seed (processEntry H x)).status = Status.disqualified := by
        show (processEntry H x).status = Status.disqualified
        rw [hstat.1, hqf]; rfl
      have hmem : scoreEntry H seed (processEntry H x) ∈ S.filter isDisqualified := by
        rw [List.mem_filter]
        exact ⟨hsx, by unfold isDisqualified; rw [decide_eq_true_eq]; exact hdis⟩
      refine ⟨disqualifiedToResult (scoreEntry H seed (processEntry H x)), ?_, ?_⟩
      · unfold drawResults allResults
        rw [List.mem_append]
        right
        rw [List.mem_map]
        exact ⟨_, hmem, rfl⟩
      · show (processEntry H x).entryCode = x.entryCode
        exact processEntry_entryCode H x
    | false =>
      have hqual : (scoreEntry H seed (processEntry H x)).status = Status.qualified := by
        show (processEntry H x).status = Status.qualified
        rw [hstat.1, hqf]; rfl
      have hmem : scoreEntry H seed (processEntry H x) ∈ S.filter isQualified := by
        rw [List.mem_filter]
        exact ⟨hsx, by unfold isQualified; rw [decide_eq_true_eq]; exact hqual⟩
      have hmem' : scoreEntry H seed (processEntry H x) ∈
          sortByScore (S.filter isQualified) :=
        (sortByScore_perm _).mem_iff.mpr hmem
      rw [List.mem_iff_getElem] at hmem'
      obtain ⟨n, hn, hg⟩ := hmem'
      refine ⟨toRankedEntry n ((sortByScore (S.filter isQualified)).get ⟨n, hn⟩), ?_, ?_⟩
      · unfold drawResults allResults
        rw [List.mem_append]
        left
        unfold rankEntriesByScore
        rw [mem_mapIdx_iff]
        exact ⟨n, hn, rfl⟩
      · rw [toRankedEntry_entryCode, List.get_eq_getElem, hg]
        show (processEntry H x).entryCode = x.entryCode
        exact processEntry_entryCode H x
  · -- characterisation of every matching result entry
    intro e he hcode
    unfold drawResults at he
    rcases mem_allResults _ e he with ⟨i, hs, rfl⟩ | ⟨d, hd, rfl⟩
    · -- e is a ranked qualified entry
      set s := (sortByScore (S.filter isQualified)).get ⟨i, hs⟩ with hsdef
      have hsq := mem_sorted_qualified S s (by rw [hsdef]; exact List.get_mem _ i hs)
      obtain ⟨x', hx', hxe⟩ := mem_scored H seed entries s hsq.1
      have hcode' : x'.entryCode = x.entryCode := by
        have h1 : s.entryCode = x'.entryCode := by
          rw [hxe]; exact processEntry_entryCode H x'
        rw [← h1]
        exact hcode
      rw [hinjRaw hx' hx hcode'] at hxe
      have hqf : quizAnswerFalse x = false := by
        by_contra hqt
        rw [Bool.not_eq_false] at hqt
        have : s.status = Status.disqualified := by
          rw [hxe]
          show (processEntry H x).status = Status.disqualified
          rw [hstat.1, hqt]; rfl
        rw [hsq.2] at this
        cases this
      constructor
      · intro hqt
        rw [hqf] at hqt
        cases hqt
      · intro _
        refine ⟨?_, ?_, ⟨i, rfl⟩⟩
        · show s.status = Status.qualified
          exact hsq.2
        · show jsStr s.disqualificationReason = none
          rw [hxe]
          show jsStr (processEntry H x).disqualificationReason = none
          rw [hstat.2, hqf]
          rfl
    · -- e is a carried-over disqualified entry
      have hdq := mem_filter_disqualified S d hd
      obtain ⟨x', hx', hxe⟩ := mem_scored H seed entries d hdq.1
      have hcode' : x'.entryCode = x.entryCode := by
        have h1 : d.entryCode = x'.entryCode := by
          rw [hxe]; exact processEntry_entryCode H x'
        rw [← h1]
        exact hcode
      rw [hinjRaw hx' hx hcode'] at hxe
      have hqf : quizAnswerFalse x = true := by
        by_contra hqt
        rw [Bool.not_eq_true] at hqt
        have : d.status = Status.qualified := by
          rw [hxe]
          show (processEntry H x).status = Status.qualified
          rw [hstat.1, hqt]; rfl
        rw [hdq.2] at this
        cases this
      constructor
      · intro _
        refine ⟨hdq.2, ?_, rfl⟩
        show d.disqualificationReason = some "Quiz answered incorrectly"
        rw [hxe]
        show (processEntry H x).disqualificationReason = some "Quiz answered incorrectly"
        rw [hstat.2, hqf]
        rfl
      · intro hqt
        rw [hqf] at hqt
        cases hqt

/-- Concrete raw entries for the closed evaluation of C3: one entry failing
the quiz, one entry without a quiz block. -/
def demoRawA : RawEntry := { entryCode := "aa", quiz := some { answerCorrect := some false } }

/-- Second concrete raw entry for C3. -/
def demoRawB : RawEntry := { entryCode := "bb" }

/-- Witness for C3 at a concrete input. -/
theorem c3_qualification_witness :
    ∃ e ∈ drawResults strId "ab" [demoRawA, demoRawB], e.entryCode = demoRawA.entryCode :=
  (c3_qualification strId "ab" [demoRawA, demoRawB] (by decide) demoRawA (by decide)).1

/-- `get` on two equal lists. -/
theorem get_congr_of_eq {α : Type} {l₁ l₂ : List α} (h : l₁ = l₂) (i : Nat)
    (hi : i < l₂.length) : l₂.get ⟨i, hi⟩ = l₁.get ⟨i, h ▸ hi⟩ := by
  subst h; rfl

/-- Rank assignment over `allResults` depends only on the multiset of scored
entries, never on their order, as long as entry codes are unique: permuted
inputs give the same sorted qualified list and the same rank per entry
code. -/
theorem allResults_rank_invariance (S₁ S₂ : List ScoredEntry) (hperm : S₁.Perm S₂)
    (hnodup : (S₁.map (fun e => e.entryCode)).Nodup) :
    (sortByScore (S₁.filter isQualified) = sortByScore (S₂.filter isQualified)) ∧
    ∀ e₁ ∈ allResults S₁, ∀ e₂ ∈ allResults S₂,
      e₁.entryCode = e₂.entryCode → e₁.rank = e₂.rank := by
  have hinjS₁ := List.inj_on_of_nodup_map hnodup
  have hQperm : (S₁.filter isQualified).Perm (S₂.filter isQualified) := hperm.filter _
  have hQ₁codes : ((S₁.filter isQualified).map (fun e => e.entryCode)).Nodup :=
    List.Sublist.nodup (List.Sublist.map _ (List.filter_sublist _)) hnodup
  have hs₁codes : ((sortByScore (S₁.filter isQualified)).map
      (fun e => e.entryCode)).Nodup :=
    (((sortByScore_perm _).map _).nodup_iff).mpr hQ₁codes
  have heq : sortByScore (S₁.filter isQualified) = sortByScore (S₂.filter isQualified) := by
    apply eq_of_perm_of_pairwise_antisymmOn _ _
      (((sortByScore_perm _).trans hQperm).trans (sortByScore_perm _).symm)
      (sortByScore_pairwise _) (sortByScore_pairwise _)
    intro a ha b hb hab hba
    exact List.inj_on_of_nodup_map hs₁codes ha hb (scoreLe_both a b hab hba).2
  refine ⟨heq, ?_⟩
  intro e₁ he₁ e₂ he₂ hcode
  rcases mem_allResults S₁ e₁ he₁ with ⟨i, hsi, rfl⟩ | ⟨d₁, hd₁, rfl⟩ <;>
    rcases mem_allResults S₂ e₂ he₂ with ⟨j, hsj, rfl⟩ | ⟨d₂, hd₂, rfl⟩
  · -- both ranked: equal codes force equal positions
    have hsj' : j < (sortByScore (S₁.filter isQualified)).length := heq ▸ hsj
    have hs2 := get_congr_of_eq heq j hsj
    rw [toRankedEntry_entryCode, toRankedEntry_entryCode, hs2] at hcode
    have hci : i < ((sortByScore (S₁.filter isQualified)).map
        (fun e => e.entryCode)).length := by
      rw [List.length_map]; exact hsi
    have hcj : j < ((sortByScore (S₁.filter isQualified)).map
        (fun e => e.entryCode)).length := by
      rw [List.length_map]; exact hsj'
    have hget : ((sortByScore (S₁.filter isQualified)).map
          (fun e => e.entryCode)).get ⟨i, hci⟩ =
        ((sortByScore (S₁.filter isQualified)).map
          (fun e => e.entryCode)).get ⟨j, hcj⟩ := by
      rw [List.get_eq_getElem, List.get_eq_getElem]
      simp only [List.getElem_map]
      rw [List.get_eq_getElem, List.get_eq_getElem] at hcode
      exact hcode
    have hij : i = j := by
      have := (hs₁codes.get_inj_iff).mp hget
      exact Fin.mk.injEq _ _ _ _ ▸ this
    subst hij
    rfl
  · -- ranked versus disqualified: impossible with unique codes
    exfalso
    have hsq := mem_sorted_qualified S₁ _ (List.get_mem _ i hsi)
    have hdq := mem_filter_disqualified S₂ d₂ hd₂
    have hd₂S₁ : d₂ ∈ S₁ := hperm.mem_iff.mpr hdq.1
    rw [toRankedEntry_entryCode, disqualifiedToResult_entryCode] at hcode
    have := hinjS₁ hsq.1 hd₂S₁ hcode
    rw [this, hdq.2] at hsq
    cases hsq.2
  · -- disqualified versus ranked: impossible with unique codes
    exfalso
    have hdq := mem_filter_disqualified S₁ d₁ hd₁
    have hsq := mem_sorted_qualified S₂ _ (List.get_mem _ j hsj)
    have hs₂S₁ : (sortByScore (S₂.filter isQualified)).get ⟨j, hsj⟩ ∈ S₁ :=
      hperm.mem_iff.mpr hsq.1
    rw [toRankedEntry_entryCode, disqualifiedToResult_entryCode] at hcode
    have := hinjS₁ hdq.1 hs₂S₁ hcode
    rw [← this, hdq.2] at hsq
    cases hsq.2
  · -- both disqualified: both ranks are null
    rfl

/-- C5: two permuted (validated) entry lists with the same randomness assign
the same rank to every entry code: the sorted qualified lists coincide and
ranks agree entry for entry. -/
theorem c5_order_invariance (H : String → String) (r : String)
    (l₁ l₂ : List RawEntry) (hperm : l₁.Perm l₂)
    (hnodup : (l₁.map RawEntry.entryCode).Nodup) :
    (sortByScore ((calculateEntryScores H (drawSeed H r)
        (processEntries H l₁)).filter isQualified) =
      sortByScore ((calculateEntryScores H (drawSeed H r)
        (processEntries H l₂)).filter isQualified)) ∧
    ∀ e₁ ∈ drawResults H r l₁, ∀ e₂ ∈ drawResults H r l₂,
      e₁.entryCode = e₂.entryCode → e₁.rank = e₂.rank := by
  have hSperm : (calculateEntryScores H (drawSeed H r) (processEntries H l₁)).Perm
      (calculateEntryScores H (drawSeed H r) (processEntries H l₂)) := by
    unfold calculateEntryScores processEntries
    exact (hperm.map _).map _
  have h := allResults_rank_invariance _ _ hSperm
    (scored_codes_nodup H (drawSeed H r) l₁ hnodup)
  exact ⟨h.1, h.2⟩

/-- Witness for C5: permuted two-entry lists, rank of the top entry agrees. -/
theorem c5_order_invariance_witness :
    ((drawResults strId "ab" [demoRawB, demoRawA]).get ⟨0, by decide⟩).rank =
      ((drawResults strId "ab" [demoRawA, demoRawB]).get ⟨0, by decide⟩).rank := by
  have h := c5_order_invariance strId "ab" [demoRawB, demoRawA] [demoRawA, demoRawB]
    (List.Perm.swap demoRawA demoRawB []) (by decide)
  exact h.2 _ (List.get_mem _ 0 (by decide)) _ (List.get_mem _ 0 (by decide)) (by decide)

/-! ## Response formatting and audit bundle (src/index.js lines 719-849) -/

/-- `competition` metadata after validation. -/
structure Competition where
  id : String
  name : String
  mode : String
deriving DecidableEq, Repr

/-- `randomnessSource` request metadata. -/
structure RandomnessSource where
  provider : Option String := none
  round : Option String := none
  timestamp : Option String := none
  verificationUrl : Option String := none
deriving DecidableEq, Repr

/-- `metadata` object of `formatDrawResponse` (lines 722-733). -/
structure DrawMetadata where
  algorithm : String
  hashFunction : String
  drawRound : String
  drawSeed : String
  timestamp : String
  totalEntries : Nat
  qualifiedEntries : Nat
  disqualifiedEntries : Nat
  resultsChecksum : String
deriving DecidableEq, Repr

/-- Return value of `formatDrawResponse` (lines 719-741). -/
structure DrawResponseData where
  metadata : DrawMetadata
  results : List RankedEntry
  topWinners : List RankedEntry
deriving DecidableEq, Repr

/-- `${r.rank}` in a template literal: `null` prints as "null". -/
def rankToString : Option Nat → String
  | some n => Nat.repr n
  | none => "null"

/-- Embedding of `computeResultsChecksum` (lines 749-760). -/
def computeResultsChecksum (sha256Hex : String → String)
    (results : List RankedEntry) : String :=
  let resultsString := String.intercalate "|"
    (results.map (fun r => rankToString r.rank ++ ":" ++ r.entryCode ++ ":" ++ r.scoreHex))
  (sha256Hex resultsString).take 16

/-- Embedding of `formatDrawResponse` (lines 719-741); `now` models the
`new Date().toISOString()` clock read. -/
def formatDrawResponse (sha256Hex : String → String) (rankedEntries : List RankedEntry)
    (qualifiedCount disqualifiedCount : Nat) (seed : String)
    (drawRound : Option String) (now : String) : DrawResponseData :=
  { metadata :=
      { algorithm := "VaultPlay Draw v1.3"
        hashFunction := "SHA-256"
        drawRound := (jsStr drawRound).getD "UNSPECIFIED"
        drawSeed := seed
        timestamp := now
        totalEntries := rankedEntries.length
        qualifiedEntries := qualifiedCount
        disqualifiedEntries := disqualifiedCount
        resultsChecksum := computeResultsChecksum sha256Hex rankedEntries }
    results := rankedEntries
    topWinners := (rankedEntries.filter
        (fun e => decide (e.status = Status.qualified))).take
      (min 10 qualifiedCount) }

/-- `competition` section of the bundle. -/
structure BundleCompetition where
  id : String
  name : String
  mode : String
deriving DecidableEq, Repr

/-- `draw` section of the bundle. -/
structure BundleDrawInfo where
  timestamp : String
  workerVersion : String
  endpoint : String
deriving DecidableEq, Repr

/-- `randomness` section of the bundle. -/
structure BundleRandomness where
  value : String
  source : String
  round : String
  timestamp : Option String
  verificationUrl : Option String
  fetchedByWorker : Bool
deriving DecidableEq, Repr

/-- One element of the bundle's `entries.list` (lines 818-828): the result
entry without its score fields. -/
structure BundleEntryItem where
  entryCode : String
  rank : Option Nat
  gamertag : Option String
  emailHash : Option String
  entryTimestamp : Option String
  location : Option LocationInfo
  quiz : Option ProcQuiz
  status : Status
  disqualificationReason : Option String
deriving DecidableEq, Repr

/-- `entries` section of the bundle. -/
structure BundleEntries where
  total : Nat
  qualified : Nat
  disqualified : Nat
  list : List BundleEntryItem
deriving DecidableEq, Repr

/-- `statistics` section of the bundle; the JS count objects are modelled as
insertion-ordered association lists. -/
structure BundleStatistics where
  disqualificationReasons : Option (List (String × Nat))
  countries : Option (List (String × Nat))
  regions : Option (List (String × Nat))
deriving DecidableEq, Repr

/-- `results` section of the bundle. -/
structure BundleResults where
  winner : Option RankedEntry
  fullRanking : List RankedEntry
  seed : String
  checksum : String
deriving DecidableEq, Repr

/-- `verification` section of the bundle. -/
structure BundleVerification where
  algorithm : String
  hashFunction : String
  sourceCode : String
deriving DecidableEq, Repr

/-- `publication` metadata attached by `publishToGitHub` (lines 884-887). -/
structure Publication where
  publishedAt : String
  filePath : String
deriving DecidableEq, Repr

/-- The audit bundle (lines 794-848).  `bundleHash` and `publication` are
absent (`none`) as produced by `generateAuditBundle`; they are attached
afterwards by `publishToGitHub`. -/
structure AuditBundle where
  version : String
  competition : Option BundleCompetition
  draw : BundleDrawInfo
  randomness : BundleRandomness
  entries : BundleEntries
  statistics : BundleStatistics
  results : BundleResults
  verification : BundleVerification
  bundleHash : Option String := none
  publication : Option Publication := none
deriving DecidableEq, Repr

/-- `m[key] = (m[key] || 0) + 1` on an insertion-ordered count object. -/
def bump : List (String × Nat) → String → List (String × Nat)
  | [], key => [(key, 1)]
  | (k, v) :: rest, key =>
      if k = key then (k, v + 1) :: rest else (k, v) :: bump rest key

/-- The `forEach` loop of lines 775-780: count disqualification reasons of
disqualified entries whose reason is truthy. -/
def countReasons (results : List RankedEntry) : List (String × Nat) :=
  results.foldl (fun m e =>
    if e.status = Status.disqualified then
      match jsStr e.disqualificationReason with
      | some reason => bump m reason
      | none => m
    else m) []

/-- The `forEach` loop of lines 785-792 for one optional location field. -/
def countField (f : RankedEntry → Option String) (results : List RankedEntry) :
    List (String × Nat) :=
  results.foldl (fun m e =>
    match jsStr (f e) with
    | some v => bump m v
    | none => m) []

/-- `Object.keys(m).length > 0 ? m : null`. -/
def emptyToNone (m : List (String × Nat)) : Option (List (String × Nat)) :=
  if m = [] then none else some m

/-- Embedding of `generateAuditBundle` (src/index.js lines 772-849). -/
def generateAuditBundle (drawResponse : DrawResponseData)
    (competition : Option Competition) (randomness : String)
    (randomnessSource : Option RandomnessSource) (drawTimestamp : String)
    (randomnessFetchedByWorker : Bool) : AuditBundle :=
  let disqualificationReasons := countReasons drawResponse.results
  let countries := countField (fun e => e.location.bind LocationInfo.country)
    drawResponse.results
  let regions := countField (fun e => e.location.bind LocationInfo.region)
    drawResponse.results
  { version := "1.0"
    competition := competition.map (fun c =>
      { id := c.id, name := c.name, mode := c.mode })
    draw :=
      { timestamp := drawTimestamp
        workerVersion := "VaultPlay Draw v1.3"
        endpoint := "/startdraw" }
    randomness :=
      { value := randomness
        source := (jsStr (randomnessSource.bind RandomnessSource.provider)).getD "unspecified"
        round := (jsStr (randomnessSource.bind RandomnessSource.round)).getD
          drawResponse.metadata.drawRound
        timestamp := jsStr (randomnessSource.bind RandomnessSource.timestamp)
        verificationUrl := jsStr (randomnessSource.bind RandomnessSource.verificationUrl)
        fetchedByWorker := randomnessFetchedByWorker }
    entries :=
      { total := drawResponse.metadata.totalEntries
        qualified := drawResponse.metadata.qualifiedEntries
        disqualified := drawResponse.metadata.disqualifiedEntries
        list := drawResponse.results.map (fun r =>
          { entryCode := r.entryCode
            rank := r.rank
            gamertag := r.gamertag
            emailHash := r.emailHash
            entryTimestamp := r.entryTimestamp
            location := r.location
            quiz := r.quiz
            status := r.status
            disqualificationReason := r.disqualificationReason }) }
    statistics :=
      { disqualificationReasons := emptyToNone disqualificationReasons
        countries := emptyToNone countries
        regions := emptyToNone regions }
    results :=
      { winner := drawResponse.results.find? (fun r => r.rank == some 1)
        fullRanking := drawResponse.results
        seed := drawResponse.metadata.drawSeed
        checksum := drawResponse.metadata.resultsChecksum }
    verification :=
      { algorithm := drawResponse.metadata.algorithm
        hashFunction := drawResponse.metadata.hashFunction
        sourceCode := "https://github.com/vaultplay-dev/vaultplay-draw-worker" }
    bundleHash := none
    publication := none }

/-- Step 10 of the handler (line 217): the bundle hash is the digest of the
serialized bundle. -/
def computeBundleHash (sha256Hex : String → String)
    (stringify : AuditBundle → String) (bundle : AuditBundle) : String :=
  sha256Hex (stringify bundle)

/-- Lines 883-887 of `publishToGitHub`: attach the already-computed bundle
hash and the publication metadata to the bundle object. -/
def attachPublicationMetadata (bundle : AuditBundle) (bundleHash : String)
    (pub : Publication) : AuditBundle :=
  { bundle with bundleHash := some bundleHash, publication := some pub }

/-- Steps 10-11 of the handler in sequence: compute the hash of the bundle as
built, then let publication attach its metadata; the returned hash is the one
computed first. -/
def bundleHashAndPublish (sha256Hex : String → String)
    (stringify : AuditBundle → String) (bundle : AuditBundle)
    (pub : Publication) : AuditBundle × String :=
  let bundleHash := computeBundleHash sha256Hex stringify bundle
  (attachPublicationMetadata bundle bundleHash pub, bundleHash)

/-- C6: the bundle hash is the digest of the serialization of the bundle
exactly as the bundle builder produced it - with no `bundleHash` and no
`publication` fields - and attaching any publication metadata afterwards
leaves the reported bundle hash unchanged. -/
theorem c6_bundle_hash_excludes_publication (sha256Hex : String → String)
    (stringify : AuditBundle → String) (drawResponse : DrawResponseData)
    (competition : Option Competition) (randomness : String)
    (randomnessSource : Option RandomnessSource) (drawTimestamp : String)
    (fetched : Bool) (pub pub' : Publication) :
    (generateAuditBundle drawResponse competition randomness randomnessSource
        drawTimestamp fetched).bundleHash = none ∧
    (generateAuditBundle drawResponse competition randomness randomnessSource
        drawTimestamp fetched).publication = none ∧
    (bundleHashAndPublish sha256Hex stringify
        (generateAuditBundle drawResponse competition randomness randomnessSource
          drawTimestamp fetched) pub).2 =
      sha256Hex (stringify (generateAuditBundle drawResponse competition randomness
        randomnessSource drawTimestamp fetched)) ∧
    (bundleHashAndPublish sha256Hex stringify
        (generateAuditBundle drawResponse competition randomness randomnessSource
          drawTimestamp fetched) pub).2 =
      (bundleHashAndPublish sha256Hex stringify
        (generateAuditBundle drawResponse competition randomness randomnessSource
          drawTimestamp fetched) pub').2 ∧
    (bundleHashAndPublish sha256Hex stringify
        (generateAuditBundle drawResponse competition randomness randomnessSource
          drawTimestamp fetched) pub).1.bundleHash =
      some ((bundleHashAndPublish sha256Hex stringify
        (generateAuditBundle drawResponse competition randomness randomnessSource
          drawTimestamp fetched) pub).2) :=
  ⟨rfl, rfl, rfl, rfl, rfl⟩

/-! ## Publication result handling (src/index.js lines 219-292, 860-934, 948-1016) -/

/-- The `github` object placed in the response's `audit` section. -/
structure GithubResult where
  published : Bool
  reason : Option String := none
  error : Option String := none
  retryable : Option Bool := none
  commitUrl : Option String := none
  commitSha : Option String := none
  releaseUrl : Option String := none
  releaseTag : Option String := none
  filePath : Option String := none
deriving DecidableEq, Repr

/-- Embedding of `isRetryableError` (lines 1117-1125): rate limits, 502/503/
504 and timeout signatures in the message are retryable. -/
def isRetryableError (message : String) : Bool :=
  strIncludes message "rate limit" ||
  strIncludes message "502" ||
  strIncludes message "503" ||
  strIncludes message "504" ||
  strIncludes message "timeout"

/-- Steps 11 of the handler (lines 219-239): the publication attempt is made
only when competition metadata is provided; a thrown error is caught and
converted into a non-published result annotated with the message and its
retryability. -/
def githubPublishResult (competitionProvided : Bool)
    (attempt : Except String GithubResult) : GithubResult :=
  if competitionProvided then
    match attempt with
    | Except.ok result => result
    | Except.error message =>
        { published := false
          error := some message
          retryable := some (isRetryableError message) }
  else { published := false, reason := some "No competition metadata provided" }

/-- `winner` object of the response's `draw` section (lines 255-261). -/
structure WinnerInfo where
  rank : Option Nat
  entryCode : String
  gamertag : Option String
  score : JsScore
  scoreHex : String
deriving DecidableEq, Repr

/-- `draw` section of the success response (lines 247-262). -/
structure DrawSummary where
  timestamp : String
  mode : String
  competitionId : Option String
  competitionName : Option String
  totalEntries : Nat
  qualifiedEntries : Nat
  disqualifiedEntries : Nat
  winner : Option WinnerInfo
deriving DecidableEq, Repr

/-- The success response of the handler (steps 12-13, lines 241-279). -/
structure DrawHttpResponse where
  status : Nat
  success : Bool
  draw : DrawSummary
  auditBundle : AuditBundle
  auditBundleHash : String
  github : GithubResult
  metadata : DrawMetadata
  results : List RankedEntry
  topWinners : List RankedEntry
deriving DecidableEq, Repr

/-- `competition && competition.id && competition.name` (line 222). -/
def competitionProvided : Option Competition → Bool
  | some c => decide (c.id ≠ "") && decide (c.name ≠ "")
  | none => false

/-- Embedding of steps 11-13 of the handler (lines 219-279): merge the
publication outcome into the `github` result object and build the HTTP 200
success response around the already-computed draw, bundle and bundle hash. -/
def buildSuccessResponse (drawTimestamp : String) (competition : Option Competition)
    (scoredCount qualifiedCount disqualifiedCount : Nat)
    (rankedQualifiedEntries : List RankedEntry) (bundle : AuditBundle)
    (bundleHash : String) (attempt : Except String GithubResult)
    (response : DrawResponseData) : DrawHttpResponse :=
  let githubResult := githubPublishResult (competitionProvided competition) attempt
  let winner := rankedQualifiedEntries.head?
  { status := 200
    success := true
    draw :=
      { timestamp := drawTimestamp
        mode := (jsStr (competition.map Competition.mode)).getD "unspecified"
        competitionId := jsStr (competition.map Competition.id)
        competitionName := jsStr (competition.map Competition.name)
        totalEntries := scoredCount
        qualifiedEntries := qualifiedCount
        disqualifiedEntries := disqualifiedCount
        winner := winner.map (fun w =>
          { rank := w.rank
            entryCode := w.entryCode
            gamertag := jsStr w.gamertag
            score := w.score
            scoreHex := w.scoreHex }) }
    auditBundle := bundle
    auditBundleHash := bundleHash
    github := githubResult
    metadata := response.metadata
    results := response.results
    topWinners := response.topWinners }

/-- C7: when the publication attempt fails - by throwing (`Except.error`) or
by returning a non-published result - the handler still produces an HTTP 200
response with `success = true`, the draw section, the audit bundle and its
bundle hash; a thrown error is reported with its message and a retryability
flag, and is never escalated to a draw failure. -/
theorem c7_graceful_degradation (drawTimestamp : String) (c : Competition)
    (hid : c.id ≠ "") (hname : c.name ≠ "")
    (scoredCount qualifiedCount disqualifiedCount : Nat)
    (ranked : List RankedEntry) (bundle : AuditBundle) (bundleHash : String)
    (message : String) (response : DrawResponseData) :
    (buildSuccessResponse drawTimestamp (some c) scoredCount qualifiedCount
        disqualifiedCount ranked bundle bundleHash (Except.error message)
        response).status = 200 ∧
    (buildSuccessResponse drawTimestamp (some c) scoredCount qualifiedCount
        disqualifiedCount ranked bundle bundleHash (Except.error message)
        response).success = true ∧
    (buildSuccessResponse drawTimestamp (some c) scoredCount qualifiedCount
        disqualifiedCount ranked bundle bundleHash (Except.error message)
        response).auditBundle = bundle ∧
    (buildSuccessResponse drawTimestamp (some c) scoredCount qualifiedCount
        disqualifiedCount ranked bundle bundleHash (Except.error message)
        response).auditBundleHash = bundleHash ∧
    (buildSuccessResponse drawTimestamp (some c) scoredCount qualifiedCount
        disqualifiedCount ranked bundle bundleHash (Except.error message)
        response).github =
      { published := false
        error := some message
        retryable := some (isRetryableError message) } ∧
    (∀ result : GithubResult,
      (buildSuccessResponse drawTimestamp (some c) scoredCount qualifiedCount
        disqualifiedCount ranked bundle bundleHash (Except.ok result)
        response).status = 200 ∧
      (buildSuccessResponse drawTimestamp (some c) scoredCount qualifiedCount
        disqualifiedCount ranked bundle bundleHash (Except.ok result)
        response).success = true ∧
      (buildSuccessResponse drawTimestamp (some c) scoredCount qualifiedCount
        disqualifiedCount ranked bundle bundleHash (Except.ok result)
        response).github = result) := by
  have hc : competitionProvided (some c) = true := by
    unfold competitionProvided
    simp [hid, hname]
  refine ⟨rfl, rfl, rfl, rfl, ?_, ?_⟩
  · show githubPublishResult (competitionProvided (some c)) (Except.error message) = _
    rw [hc]
    rfl
  · intro result
    refine ⟨rfl, rfl, ?_⟩
    show githubPublishResult (competitionProvided (some c)) (Except.ok result) = result
    rw [hc]
    rfl

/-- Witness for C7 at a concrete input: a 503 from the store is reported as a
retryable publication failure inside an HTTP 200 success response. -/
theorem c7_graceful_degradation_witness :
    (buildSuccessResponse "t" (some { id := "c1", name := "Comp", mode := "test" })
        2 2 0 [] (generateAuditBundle
          { metadata :=
              { algorithm := "VaultPlay Draw v1.3", hashFunction := "SHA-256"
                drawRound := "1", drawSeed := "ab", timestamp := "t"
                totalEntries := 0, qualifiedEntries := 0, disqualifiedEntries := 0
                resultsChecksum := "x" }
            results := [], topWinners := [] } none "ab" none "t" false)
        "h" (Except.error "GitHub API error: 503 Service Unavailable")
        { metadata :=
            { algorithm := "VaultPlay Draw v1.3", hashFunction := "SHA-256"
              drawRound := "1", drawSeed := "ab", timestamp := "t"
              totalEntries := 0, qualifiedEntries := 0, disqualifiedEntries := 0
              resultsChecksum := "x" }
          results := [], topWinners := [] }).status = 200 ∧
    (buildSuccessResponse "t" (some { id := "c1", name := "Comp", mode := "test" })
        2 2 0 [] (generateAuditBundle
          { metadata :=
              { algorithm := "VaultPlay Draw v1.3", hashFunction := "SHA-256"
                drawRound := "1", drawSeed := "ab", timestamp := "t"
                totalEntries := 0, qualifiedEntries := 0, disqualifiedEntries := 0
                resultsChecksum := "x" }
            results := [], topWinners := [] } none "ab" none "t" false)
        "h" (Except.error "GitHub API error: 503 Service Unavailable")
        { metadata :=
            { algorithm := "VaultPlay Draw v1.3", hashFunction := "SHA-256"
              drawRound := "1", drawSeed := "ab", timestamp := "t"
              totalEntries := 0, qualifiedEntries := 0, disqualifiedEntries := 0
              resultsChecksum := "x" }
          results := [], topWinners := [] }).github.retryable = some true := by
  have h := c7_graceful_degradation "t" { id := "c1", name := "Comp", mode := "test" }
    (by decide) (by decide) 2 2 0 []
    (generateAuditBundle
      { metadata :=
          { algorithm := "VaultPlay Draw v1.3", hashFunction := "SHA-256"
            drawRound := "1", drawSeed := "ab", timestamp := "t"
            totalEntries := 0, qualifiedEntries := 0, disqualifiedEntries := 0
            resultsChecksum := "x" }
        results := [], topWinners := [] } none "ab" none "t" false)
    "h" "GitHub API error: 503 Service Unavailable"
    { metadata :=
        { algorithm := "VaultPlay Draw v1.3", hashFunction := "SHA-256"
          drawRound := "1", drawSeed := "ab", timestamp := "t"
          totalEntries := 0, qualifiedEntries := 0, disqualifiedEntries := 0
          resultsChecksum := "x" }
      results := [], topWinners := [] }
  refine ⟨h.1, ?_⟩
  rw [h.2.2.2.2.1]
  decide

/-! ## Committing the bundle file (commitFileToGitHub, src/index.js 948-1016) -/

/-- Result of a successful contents-API PUT. -/
structure CommitResult where
  sha : String
  commitUrl : String
deriving DecidableEq, Repr

/-- Embedding of `commitFileToGitHub` (src/index.js lines 948-1016) against
an abstract content store `store : String → Option String` returning the sha
of an existing file at a path.

The function first reads the existing file's sha (lines 956-975; absence is
not an error).  It then builds the commit message (lines 978-980) from
`date.getUTCHours()` / `date.getUTCMinutes()` - but `date` is not bound
anywhere in this function or at module scope (a `const date` exists only
inside `publishToGitHub` and `createGitHubRelease`), so in the Workers
runtime evaluation of either branch of the template literal throws
`ReferenceError: date is not defined` before the sha is attached to the
payload and before the PUT request is issued.  The embedding therefore
returns that error unconditionally; the payload construction of lines
982-1010 is dead code. -/
def commitFileToGitHub (store : String → Option String) (path : String)
    (competitionMode : String) : Except String CommitResult :=
  let existingFileSha : Option String := store path
  let _ := existingFileSha
  let _ := competitionMode
  Except.error "ReferenceError: date is not defined"

/-- C8 (code bug): every call of `commitFileToGitHub` throws while building
the commit message, whether or not a file already exists at the target path;
no write ever reaches the store, so publishing is never an update commit. -/
theorem c8_commit_always_throws (store : String → Option String) (path : String)
    (mode : String) :
    commitFileToGitHub store path mode =
      Except.error "ReferenceError: date is not defined" ∧
    commitFileToGitHub (fun p => if p = path then some "oldsha" else none) path mode =
      Except.error "ReferenceError: date is not defined" :=
  ⟨rfl, rfl⟩

/-! ## Score representation in the results array (C10) -/

/-- Concrete raw entries with one disqualified entry, for evaluating the
result assembly: entry "bb" fails the quiz. -/
def demoDisqRaw : List RawEntry :=
  [{ entryCode := "aa" },
   { entryCode := "bb", quiz := some { answerCorrect := some false } }]

/-- C10 (code bug): in the results array, a qualified entry's `score` field
is the decimal string of its hex score, but a disqualified entry's `score`
field is still the BigInt value itself - the `{...e, rank: null}` spread of
lines 191-194 skips the string conversion that `rankEntriesByScore` applies
(line 704), so the JSON serialization of the response and of the audit
bundle throws on any draw with a disqualified entry. -/
theorem c10_disqualified_score_is_bigint :
    ((drawResults strId "ab" demoDisqRaw).get ⟨0, by decide⟩).score =
      JsScore.str (Nat.repr (hexToNat "abaa")) ∧
    ((drawResults strId "ab" demoDisqRaw).get ⟨1, by decide⟩).score =
      JsScore.big (hexToNat "abbb") ∧
    ((drawResults strId "ab" demoDisqRaw).get ⟨1, by decide⟩).status =
      Status.disqualified := by
  refine ⟨by decide, by decide, by decide⟩

/-- Every result entry of the `allResults` assembly carries the quiz block of
its underlying scored entry unchanged: line 700 (`quiz: entry.quiz || null`)
passes the object through for ranked entries, and the `{...e, rank: null}`
spread of lines 191-194 keeps it for disqualified entries. -/
theorem mem_allResults_quiz (S : List ScoredEntry) (res : RankedEntry)
    (h : res ∈ allResults S) :
    ∃ se ∈ S, res.entryCode = se.entryCode ∧ res.quiz = se.quiz := by
  rcases mem_allResults S res h with ⟨i, hs, rfl⟩ | ⟨d, hd, rfl⟩
  · have hmem := mem_sorted_qualified S _ (List.get_mem _ i hs)
    exact ⟨_, hmem.1, rfl, rfl⟩
  · have hmem := mem_filter_disqualified S d hd
    exact ⟨d, hmem.1, rfl, rfl⟩

/-- C9: a raw entry whose quiz block is present but whose `answerCorrect`
field is absent is processed with `quiz.answerCorrect = true`, stays
qualified and carries no disqualification reason; in any draw over a
validated entry list containing it, its result entry carries that defaulted
quiz block, and the audit bundle built from the draw reports
`answerCorrect = true` for it in `entries.list` (with `results.fullRanking`
being the results list itself). -/
theorem c9_absent_answerCorrect (H : String → String) (e : RawEntry) (q : RawQuiz)
    (hq : e.quiz = some q) (hans : q.answerCorrect = none) :
    (processEntry H e).quiz = some
      { question := jsStr q.question
        answerGiven := jsStr q.answerGiven
        answerCorrect := true } ∧
    (processEntry H e).status = Status.qualified ∧
    (processEntry H e).disqualificationReason = none ∧
    (∀ (r : String) (entries : List RawEntry),
      (entries.map RawEntry.entryCode).Nodup → e ∈ entries →
      ∀ res ∈ drawResults H r entries, res.entryCode = e.entryCode →
        res.quiz = some
          { question := jsStr q.question
            answerGiven := jsStr q.answerGiven
            answerCorrect := true }) ∧
    (∀ (r : String) (entries : List RawEntry),
      (entries.map RawEntry.entryCode).Nodup → e ∈ entries →
      ∀ (qualifiedCount disqualifiedCount : Nat) (drawRound : Option String)
        (now : String) (competition : Option Competition)
        (randomnessSource : Option RandomnessSource) (drawTimestamp : String)
        (fetched : Bool),
        (generateAuditBundle (formatDrawResponse H (drawResults H r entries)
            qualifiedCount disqualifiedCount (drawSeed H r) drawRound now)
          competition r randomnessSource drawTimestamp
          fetched).results.fullRanking = drawResults H r entries ∧
        ∀ item ∈ (generateAuditBundle (formatDrawResponse H (drawResults H r entries)
            qualifiedCount disqualifiedCount (drawSeed H r) drawRound now)
          competition r randomnessSource drawTimestamp fetched).entries.list,
          item.entryCode = e.entryCode →
          item.quiz = some
            { question := jsStr q.question
              answerGiven := jsStr q.answerGiven
              answerCorrect := true }) := by
  have hproc : (processEntry H e).quiz = some
      { question := jsStr q.question
        answerGiven := jsStr q.answerGiven
        answerCorrect := true } ∧
      (processEntry H e).status = Status.qualified ∧
      (processEntry H e).disqualificationReason = none := by
    unfold processEntry
    rw [hq]
    simp [hans]
  have hprop : ∀ (r : String) (entries : List RawEntry),
      (entries.map RawEntry.entryCode).Nodup → e ∈ entries →
      ∀ res ∈ drawResults H r entries, res.entryCode = e.entryCode →
        res.quiz = some
          { question := jsStr q.question
            answerGiven := jsStr q.answerGiven
            answerCorrect := true } := by
    intro r entries hnodup he res hres hcode
    unfold drawResults at hres
    obtain ⟨se, hse, hcode', hquiz⟩ := mem_allResults_quiz _ res hres
    obtain ⟨x', hx', hxe⟩ := mem_scored H (drawSeed H r) entries se hse
    have hc : x'.entryCode = e.entryCode := by
      have h1 : se.entryCode = x'.entryCode := by
        rw [hxe]; exact processEntry_entryCode H x'
      rw [← h1, ← hcode']
      exact hcode
    rw [List.inj_on_of_nodup_map hnodup hx' he hc] at hxe
    rw [hquiz, hxe]
    exact hproc.1
  refine ⟨hproc.1, hproc.2.1, hproc.2.2, hprop, ?_⟩
  intro r entries hnodup he qualifiedCount disqualifiedCount drawRound now
    competition randomnessSource drawTimestamp fetched
  refine ⟨rfl, ?_⟩
  intro item hitem hcode
  replace hitem : item ∈ (drawResults H r entries).map (fun rr =>
      ({ entryCode := rr.entryCode
         rank := rr.rank
         gamertag := rr.gamertag
         emailHash := rr.emailHash
         entryTimestamp := rr.entryTimestamp
         location := rr.location
         quiz := rr.quiz
         status := rr.status
         disqualificationReason := rr.disqualificationReason } : BundleEntryItem)) := hitem
  obtain ⟨res, hres, rfl⟩ := List.mem_map.mp hitem
  exact hprop r entries hnodup he res hres hcode

/-- Witness for C9 at a concrete input: the draw over the single entry with
an omitted `answerCorrect` publishes a bundle whose entry list reports
`answerCorrect = true`. -/
theorem c9_absent_answerCorrect_witness :
    (processEntry strId { entryCode := "q1", quiz := some {} }).status = Status.qualified ∧
    (processEntry strId { entryCode := "q1", quiz := some {} }).quiz =
      some { question := none, answerGiven := none, answerCorrect := true } ∧
    ((generateAuditBundle (formatDrawResponse strId
        (drawResults strId "ab" [{ entryCode := "q1", quiz := some {} }]) 1 0
        (drawSeed strId "ab") none "t") none "ab" none "t"
        false).entries.list.get ⟨0, by decide⟩).quiz =
      some { question := none, answerGiven := none, answerCorrect := true } := by
  have h := c9_absent_answerCorrect strId { entryCode := "q1", quiz := some {} } {} rfl rfl
  refine ⟨h.2.1, h.1, ?_⟩
  exact (h.2.2.2.2 "ab" [{ entryCode := "q1", quiz := some {} }] (by decide) (by decide)
      1 0 none "t" none none "t" false).2 _ (List.get_mem _ 0 (by decide)) (by decide)
